import Mathlib

/-!
Shallow embedding of `qa.py` (synthetic-data-generator): a pipeline that
extracts text from PDF/TXT/MD files, chunks it by token count, asks an LLM
backend for question/answer pairs, appends the records to a shared output
artifact, and tracks processed files in a persistent ledger.

External effects (pypdf, tiktoken, the OpenAI client, the filesystem) are
modelled as explicit parameters; file contents (the output artifact and the
processed-files ledger) are modelled as lists of rows/lines carried in an
explicit state. Machine-level concurrency is modelled by serialization: every
append to the shared artifact or ledger happens under the single process-wide
`write_lock`, so any concurrent execution is some total order (an
interleaving) of the individual locked appends.
-/

namespace QAGen

/-- `KEY_Q = "question"` (qa.py line 22). -/
def KEY_Q : String := "question"

/-- `KEY_A = "answer"` (qa.py line 23). -/
def KEY_A : String := "answer"

/-- `DATA_CHUNK_SIZE = 2048` (qa.py line 25). -/
def DATA_CHUNK_SIZE : Nat := 2048

/-- The pydantic response model `QAData` (qa.py lines 30-32): the validated
structured response of the backend, with exactly two string fields. -/
structure QAData where
  question : String
  answer : String
deriving DecidableEq, Repr

/-- The dictionary `{KEY_Q: ..., KEY_A: ...}` built by `generate_qa_data`
(qa.py lines 81-84): one output record with exactly the two fields. -/
structure QARecord where
  question : String
  answer : String
deriving DecidableEq, Repr

/-- Output encodings: `--filetype csv` vs `jsonl` (json is folded into jsonl
by `main`, qa.py lines 139 and 144). -/
inductive FileFormat where
  | csv
  | jsonl
deriving DecidableEq, Repr

/-- One physical row/line of the output artifact.
`header` is the CSV header row written by `writer.writeheader()` (carrying
its field names); `cells` is a CSV data row as written by
`writer.writerow(data)` with fieldnames `[KEY_Q, KEY_A]`; `jsonLine` is one
`json.dump(data, file)` line of the jsonl encoding. Quoting/escaping inside
one row is the csv/json library's concern and is abstracted to row
granularity. -/
inductive Row where
  | header (fields : List String)
  | cells (vals : List String)
  | jsonLine (q a : String)
deriving DecidableEq, Repr

/-- Re-parsing the output artifact: each CSV data row with the two columns,
or each JSONL line, yields one record; a header row yields none. -/
def parseRecords (file : List Row) : List QARecord :=
  file.filterMap fun r =>
    match r with
    | Row.header _ => none
    | Row.cells [q, a] => some { question := q, answer := a }
    | Row.cells _ => none
    | Row.jsonLine q a => some { question := q, answer := a }

/-- Number of header rows in the artifact. -/
def headerCount (file : List Row) : Nat :=
  (file.filter fun r =>
    match r with
    | Row.header _ => true
    | _ => false).length

/-- `write_data` (qa.py lines 91-105), with the destination file's current
contents passed and returned explicitly. The file is opened in append mode;
for csv, `file.tell() == 0` at open time is exactly "the file is empty",
in which case `writer.writeheader()` emits the header row first; then
`writer.writerow(data)` emits the record row. For jsonl, `json.dump` plus a
newline emits one line. -/
def write_data (file_format : FileFormat) (data : QARecord) (output_file : List Row) :
    List Row :=
  match file_format with
  | FileFormat.csv =>
      let afterHeader :=
        if output_file.length = 0 then output_file ++ [Row.header [KEY_Q, KEY_A]]
        else output_file
      afterHeader ++ [Row.cells [data.question, data.answer]]
  | FileFormat.jsonl => output_file ++ [Row.jsonLine data.question data.answer]

/-- `generate_qa_data` (qa.py lines 69-89). The OpenAI/instructor call is the
opaque `backend`: on success it yields the validated two-field `QAData`
structure; any raised error (network, auth, rate limit, failed response-model
validation) is the `Except.error` case, which the `try/except` turns into
`None`. The randomized temperature does not affect which fields are
extracted and is folded into the opacity of `backend`. -/
def generate_qa_data (backend : String → Except String QAData) (text_chunk : String) :
    Option QARecord :=
  match backend text_chunk with
  | Except.ok qa_data => some { question := qa_data.question, answer := qa_data.answer }
  | Except.error _ => none

/-- The token windows `tokens[i:i + tokens_per_chunk]` for
`i in range(0, len(tokens), tokens_per_chunk)` (qa.py line 66): contiguous
windows of at most `tokens_per_chunk` tokens. For `tokens_per_chunk = 0`
python's `range` raises; this total model returns `[]` there (the program
only ever calls it with the positive constant `DATA_CHUNK_SIZE`). -/
def chunkTokens {α : Type} (tokens_per_chunk : Nat) (tokens : List α) :
    List (List α) :=
  match tokens with
  | [] => []
  | x :: xs =>
      if tokens_per_chunk = 0 then []
      else
        (x :: xs).take tokens_per_chunk ::
          chunkTokens tokens_per_chunk ((x :: xs).drop tokens_per_chunk)
termination_by tokens.length
decreasing_by
  simp only [List.length_drop, List.length_cons]
  omega

/-- `split_text_into_chunks` (qa.py lines 63-67), with the tiktoken encoder
for the model passed as the opaque pair `enc`/`dec`. The source computes
`''.join(encoding.decode(window))`; since `encoding.decode` returns a string,
`''.join` of it is that same string, so each chunk is just the decoded
window. -/
def split_text_into_chunks {α : Type} (enc : String → List α) (dec : List α → String)
    (tokens_per_chunk : Nat) (text : String) : List String :=
  let tokens := enc text
  (chunkTokens tokens_per_chunk tokens).map dec

/-- `os.path.splitext(p)[1]` for a posix path: the extension runs from the
last dot, provided some character strictly before that dot (and after the
last path separator) is not a dot; otherwise the extension is empty
(`".bashrc"` has no extension). -/
def splitextExt (p : String) : String :=
  let cs := p.data
  let sepIdx : Int := ((List.range cs.length).filter
    (fun i => cs.get? i = some '/')).foldl (fun _ i => (i : Int)) (-1)
  let dotIdx : Int := ((List.range cs.length).filter
    (fun i => cs.get? i = some '.')).foldl (fun _ i => (i : Int)) (-1)
  if dotIdx > sepIdx then
    if ((List.range cs.length).filter
        (fun j => sepIdx < Int.ofNat j ∧ Int.ofNat j < dotIdx ∧ cs.get? j ≠ some '.')).length
        ≠ 0 then
      String.mk (cs.drop dotIdx.toNat)
    else ""
  else ""

/-- `os.path.basename(p)` for a posix path: everything after the last `/`. -/
def baseName (p : String) : String :=
  String.mk ((p.data.reverse.takeWhile (fun c => c ≠ '/')).reverse)

/-- Python's `str.lower()` as used on file extensions (qa.py line 35),
modelled character-wise (ASCII case folding, which is all the extension
comparison exercises). -/
def strLower (s : String) : String :=
  String.mk (s.data.map Char.toLower)

/-- `extract_text` (qa.py lines 34-47). The pypdf page walk of
`extract_text_from_pdf` (lines 49-61) and the UTF-8 whole-file read (lines
39-44) are the opaque readers `readPdf` and `readTxt`; both already return
`none` on a caught read/parse exception, as the source's `try/except` blocks
do. An unsupported extension yields `none` (logged in the source). -/
def extract_text (readPdf readTxt : String → Option String) (file_path : String) :
    Option String :=
  let ext := strLower (splitextExt file_path)
  if ext = ".pdf" then readPdf file_path
  else if ext ∈ [".txt", ".md"] then readTxt file_path
  else none

/-- The two shared persistent artifacts of a run: the output file (rows of
`output_qa.csv` / `output_qa.jsonl`) and the ledger file
(lines of `processed_files.txt`). -/
structure PState where
  output : List Row
  ledger : List String
deriving DecidableEq, Repr

/-- Observable calls made while processing one file, used to state that a
component was (not) invoked. -/
inductive Event where
  | extractCall (path : String)
  | generateCall (chunk : String)
deriving DecidableEq, Repr

/-- The per-chunk loop body of `process_file` (qa.py lines 115-120): call
`generate_qa_data` on the chunk; on a non-null result take `write_lock` and
append via `write_data`. -/
def processChunk (backend : String → Except String QAData) (file_format : FileFormat)
    (acc : PState × List Event) (chunk : String) : PState × List Event :=
  match generate_qa_data backend chunk with
  | some qa_data =>
      ({ acc.1 with output := write_data file_format qa_data acc.1.output },
        acc.2 ++ [Event.generateCall chunk])
  | none => (acc.1, acc.2 ++ [Event.generateCall chunk])

/-- `process_file` (qa.py lines 108-125), instrumented with the list of
extractor/generator calls it makes. `processed_files` is the in-memory
ledger snapshot loaded at dispatch start; `st` carries the output artifact
and the ledger file. Python's `if text:` is false both for `None` and for
the empty string, hence the two early-false branches. On the success path
all chunks are attempted, then the base name is appended to the ledger under
`write_lock`, and `True` is returned. -/
def process_file {α : Type} (readPdf readTxt : String → Option String)
    (backend : String → Except String QAData)
    (enc : String → List α) (dec : List α → String)
    (file_path : String) (file_format : FileFormat)
    (processed_files : List String) (st : PState) :
    Bool × PState × List Event :=
  if baseName file_path ∈ processed_files then
    (false, st, [])
  else
    match extract_text readPdf readTxt file_path with
    | none => (false, st, [Event.extractCall file_path])
    | some text =>
        if text = "" then (false, st, [Event.extractCall file_path])
        else
          let chunks := split_text_into_chunks enc dec DATA_CHUNK_SIZE text
          let stepped := chunks.foldl (processChunk backend file_format)
            (st, [Event.extractCall file_path])
          (true,
            { stepped.1 with ledger := stepped.1.ledger ++ [baseName file_path] },
            stepped.2)

/-- `supported_types = ('.pdf', '.txt', '.md')` (qa.py line 150). -/
def supported_types : List String := [".pdf", ".txt", ".md"]

/-- The candidate filter of `main` (qa.py line 151):
`os.path.splitext(f)[1] in supported_types and (args.force or f not in processed_files)`.
The extension comparison is an exact (case-sensitive) membership test. -/
def candidateFilter (force : Bool) (processed_files : List String) (f : String) :
    Bool :=
  supported_types.contains (splitextExt f) && (force || !(processed_files.contains f))

/-- Sequentialized run of the worker pool (qa.py lines 154-155): each
submitted `process_file` task is independent, and every mutation of the
shared state happens under `write_lock`, so any concurrent schedule applies
the per-file state transformers in some total order; this folds them in the
given order. -/
def run_files {α : Type} (readPdf readTxt : String → Option String)
    (backend : String → Except String QAData)
    (enc : String → List α) (dec : List α → String)
    (file_format : FileFormat) (files : List String)
    (processed_files : List String) (st : PState) : PState :=
  files.foldl
    (fun s f =>
      (process_file readPdf readTxt backend enc dec f file_format processed_files s).2.1)
    st

/-- The completion loop of `main` (qa.py lines 157-163): for each completed
future, `pbar.update(1)` runs only when `future.result()` is `True`; an
exception raised by the task is caught and logged, and the loop continues.
Each task's outcome is `Except.ok b` (returned `b`) or `Except.error e`
(raised `e`). Returns the final progress count and the logged errors. -/
def progressStep (acc : Nat × List String) (r : Except String Bool) :
    Nat × List String :=
  match r with
  | Except.ok true => (acc.1 + 1, acc.2)
  | Except.ok false => acc
  | Except.error e => (acc.1, acc.2 ++ [e])

/-- The completion loop itself: fold `progressStep` over the task outcomes in
completion order, starting from progress `0` and no logged errors. -/
def progressLoop (results : List (Except String Bool)) : Nat × List String :=
  results.foldl progressStep (0, [])

/-- A serialized sequence of `write_data` appends: since every writer
invocation holds `write_lock` for the whole open-append-close sequence
(qa.py lines 119-120), a concurrent execution is exactly one such
serialization. -/
def append_records (file_format : FileFormat) (ws : List QARecord) (file : List Row) :
    List Row :=
  ws.foldl (fun f d => write_data file_format d f) file

/-! ### Chunker lemmas -/

/-- The token windows concatenate back to the original token sequence: the
windows are contiguous, in order, with no gaps or overlaps. -/
theorem chunkTokens_flatten {α : Type} (n : Nat) (hn : 0 < n) (l : List α) :
    (chunkTokens n l).flatten = l := by
  induction l using chunkTokens.induct n with
  | case1 => simp [chunkTokens]
  | case2 x xs h => exact absurd h (by omega)
  | case3 x xs h ih =>
      rw [chunkTokens]
      simp only [if_neg h, List.flatten_cons]
      rw [ih]
      exact List.take_append_drop _ _

/-- Every token window is nonempty and holds at most `n` tokens. -/
theorem chunkTokens_window_le {α : Type} (n : Nat) (hn : 0 < n) (l : List α) :
    ∀ w ∈ chunkTokens n l, w.length ≤ n ∧ w ≠ [] := by
  induction l using chunkTokens.induct n with
  | case1 => simp [chunkTokens]
  | case2 x xs h => exact absurd h (by omega)
  | case3 x xs h ih =>
      rw [chunkTokens]
      simp only [if_neg h]
      intro w hw
      rcases List.mem_cons.mp hw with hw | hw
      · subst hw
        exact ⟨List.length_take_le _ _, by simp [h]⟩
      · exact ih w hw

/-- A decoder that maps `++` to string append and `[]` to `""` turns the
flatten of token windows into the join of the decoded windows. -/
theorem join_cons_str (s : String) (l : List String) :
    String.join (s :: l) = s ++ String.join l := by
  simp only [String.join_eq, List.map_cons, List.flatten_cons]
  rfl

theorem join_map_dec {α : Type} (dec : List α → String)
    (hnil : dec [] = "") (hhom : ∀ a b : List α, dec (a ++ b) = dec a ++ dec b)
    (ls : List (List α)) :
    String.join (ls.map dec) = dec ls.flatten := by
  induction ls with
  | nil => simp [String.join, hnil]
  | cons a rest ih =>
      rw [List.map_cons, join_cons_str, ih, List.flatten_cons, hhom]

/-! ### Output-writer lemmas -/

/-- One `write_data` call appends exactly one parsable record. -/
theorem parseRecords_write_data (file_format : FileFormat) (d : QARecord)
    (f : List Row) :
    parseRecords (write_data file_format d f) = parseRecords f ++ [d] := by
  cases file_format with
  | csv =>
      by_cases hf : f.length = 0
      · rw [List.length_eq_zero] at hf
        subst hf
        simp [write_data, parseRecords]
      · simp [write_data, hf, parseRecords, List.filterMap_append]
  | jsonl => simp [write_data, parseRecords, List.filterMap_append]

/-- One `write_data` call preserves "at most one header row". -/
theorem headerCount_write_data (file_format : FileFormat) (d : QARecord)
    (f : List Row) (h : headerCount f ≤ 1) :
    headerCount (write_data file_format d f) ≤ 1 := by
  cases file_format with
  | csv =>
      by_cases hf : f.length = 0
      · rw [List.length_eq_zero] at hf
        subst hf
        simp [write_data, headerCount]
      · simpa [write_data, hf, headerCount, List.filter_append] using h
  | jsonl => simpa [write_data, headerCount, List.filter_append] using h

/-- A serialized batch of appends adds exactly its records, in order. -/
theorem parseRecords_append_records (file_format : FileFormat) (ws : List QARecord) :
    ∀ f : List Row, parseRecords (append_records file_format ws f) = parseRecords f ++ ws := by
  induction ws with
  | nil => intro f; simp [append_records]
  | cons d rest ih =>
      intro f
      simp only [append_records, List.foldl_cons] at ih ⊢
      rw [ih, parseRecords_write_data]
      simp

/-- A serialized batch of appends preserves "at most one header row". -/
theorem headerCount_append_records (file_format : FileFormat) (ws : List QARecord) :
    ∀ f : List Row, headerCount f ≤ 1 →
      headerCount (append_records file_format ws f) ≤ 1 := by
  induction ws with
  | nil => intro f h; simpa [append_records] using h
  | cons d rest ih =>
      intro f h
      simp only [append_records, List.foldl_cons] at ih ⊢
      exact ih _ (headerCount_write_data _ _ _ h)

/-- `N` lists of `M` records each flatten to `N * M` records. -/
theorem flatten_length_workers {β : Type} (N M : Nat) (ws : List (List β))
    (hN : ws.length = N) (hM : ∀ w ∈ ws, w.length = M) :
    ws.flatten.length = N * M := by
  subst hN
  induction ws with
  | nil => simp
  | cons w rest ih =>
      simp only [List.flatten_cons, List.length_append, List.length_cons]
      rw [hM w (List.mem_cons_self _ _), ih (fun v hv => hM v (List.mem_cons_of_mem _ hv))]
      ring

/-! ### File-processor lemmas -/

/-- The per-chunk loop only writes to the output artifact; it never touches
the ledger. -/
theorem processChunk_foldl_ledger (backend : String → Except String QAData)
    (file_format : FileFormat) (chunks : List String) :
    ∀ (st : PState) (evs : List Event),
      ((chunks.foldl (processChunk backend file_format) (st, evs)).1).ledger = st.ledger := by
  induction chunks with
  | nil => intro st evs; rfl
  | cons c rest ih =>
      intro st evs
      simp only [List.foldl_cons]
      cases hg : generate_qa_data backend c with
      | some qa => simpa [processChunk, hg] using ih _ _
      | none => simpa [processChunk, hg] using ih st _

/-- The per-chunk loop invokes the generator once per chunk, in order:
its event trace is one `generateCall` per chunk appended to the incoming
trace. -/
theorem processChunk_foldl_events (backend : String → Except String QAData)
    (file_format : FileFormat) (chunks : List String) :
    ∀ (st : PState) (evs : List Event),
      (chunks.foldl (processChunk backend file_format) (st, evs)).2
        = evs ++ chunks.map Event.generateCall := by
  induction chunks with
  | nil => intro st evs; simp
  | cons c rest ih =>
      intro st evs
      simp only [List.foldl_cons, List.map_cons]
      cases hg : generate_qa_data backend c with
      | some qa =>
          simp only [processChunk, hg]
          rw [ih]
          simp
      | none =>
          simp only [processChunk, hg]
          rw [ih]
          simp

/-- If the generator fails on every chunk of the loop, the shared state is
untouched by the loop. -/
theorem processChunk_foldl_none (backend : String → Except String QAData)
    (file_format : FileFormat) (chunks : List String)
    (hgen : ∀ c ∈ chunks, generate_qa_data backend c = none) :
    ∀ (st : PState) (evs : List Event),
      (chunks.foldl (processChunk backend file_format) (st, evs)).1 = st := by
  induction chunks with
  | nil => intro st evs; rfl
  | cons c rest ih =>
      intro st evs
      have hc : generate_qa_data backend c = none := hgen c (List.mem_cons_self _ _)
      simp only [List.foldl_cons, processChunk, hc]
      exact ih (fun v hv => hgen v (List.mem_cons_of_mem _ hv)) st _

/-- Case analysis of one `process_file` call: either it succeeds — the file
was not in the snapshot, extraction produced non-empty text, all chunks were
attempted, and exactly one copy of the base name was appended to the ledger —
or it fails with the state untouched, which happens exactly when the file was
in the snapshot, extraction returned `None`, or the text was empty. -/
theorem process_file_cases {α : Type} (readPdf readTxt : String → Option String)
    (backend : String → Except String QAData)
    (enc : String → List α) (dec : List α → String)
    (file_path : String) (file_format : FileFormat)
    (processed_files : List String) (st : PState) :
    (let r := process_file readPdf readTxt backend enc dec file_path file_format
        processed_files st
     (r.1 = true ∧ r.2.1.ledger = st.ledger ++ [baseName file_path]
        ∧ baseName file_path ∉ processed_files
        ∧ ∃ t, extract_text readPdf readTxt file_path = some t ∧ t ≠ "")
     ∨ (r.1 = false ∧ r.2.1 = st
        ∧ (baseName file_path ∈ processed_files
           ∨ extract_text readPdf readTxt file_path = none
           ∨ extract_text readPdf readTxt file_path = some ""))) := by
  by_cases hmem : baseName file_path ∈ processed_files
  · right
    simp [process_file, hmem]
  · cases hext : extract_text readPdf readTxt file_path with
    | none =>
        right
        simp [process_file, hmem, hext]
    | some t =>
        by_cases ht : t = ""
        · right
          subst ht
          simp [process_file, hmem, hext]
        · left
          refine ⟨?_, ?_, hmem, t, hext ▸ rfl, ht⟩
          · simp [process_file, hmem, hext, ht]
          · simp only [process_file, if_neg hmem, hext, if_neg ht]
            exact congrArg (· ++ [baseName file_path])
              (processChunk_foldl_ledger backend file_format _ st _)

/-- One `process_file` call leaves the ledger unchanged or appends exactly
one copy of its own base name. -/
theorem process_file_ledger_step {α : Type} (readPdf readTxt : String → Option String)
    (backend : String → Except String QAData)
    (enc : String → List α) (dec : List α → String)
    (file_path : String) (file_format : FileFormat)
    (processed_files : List String) (st : PState) :
    (process_file readPdf readTxt backend enc dec file_path file_format
        processed_files st).2.1.ledger = st.ledger
    ∨ (process_file readPdf readTxt backend enc dec file_path file_format
        processed_files st).2.1.ledger = st.ledger ++ [baseName file_path] := by
  rcases process_file_cases readPdf readTxt backend enc dec file_path file_format
      processed_files st with ⟨_, hl, _⟩ | ⟨_, hst, _⟩
  · exact Or.inr hl
  · exact Or.inl (by rw [hst])

/-- A run never touches ledger entries for identifiers that are not among
the base names of the submitted files. -/
theorem run_files_count_notmem {α : Type} (readPdf readTxt : String → Option String)
    (backend : String → Except String QAData)
    (enc : String → List α) (dec : List α → String)
    (file_format : FileFormat) (files : List String)
    (processed_files : List String) (id : String)
    (hid : id ∉ files.map baseName) :
    ∀ st : PState,
      (run_files readPdf readTxt backend enc dec file_format files processed_files
          st).ledger.count id = st.ledger.count id := by
  induction files with
  | nil => intro st; rfl
  | cons f fs ih =>
      intro st
      have hne : baseName f ≠ id := by
        intro h
        exact hid (h ▸ List.mem_map_of_mem baseName (List.mem_cons_self _ _))
      have htail : id ∉ fs.map baseName := fun h =>
        hid (List.mem_cons_of_mem _ h)
      simp only [run_files, List.foldl_cons]
      rw [show ∀ s, List.foldl _ s fs =
          run_files readPdf readTxt backend enc dec file_format fs processed_files s
        from fun _ => rfl]
      rw [ih htail]
      rcases process_file_ledger_step readPdf readTxt backend enc dec f file_format
          processed_files st with h | h
      · rw [h]
      · rw [h, List.count_append]
        simp [List.count_singleton, hne]

/-- Over a whole run of files with pairwise-distinct base names (directory
entries are unique), each identifier gains at most one ledger entry. -/
theorem run_files_count_le {α : Type} (readPdf readTxt : String → Option String)
    (backend : String → Except String QAData)
    (enc : String → List α) (dec : List α → String)
    (file_format : FileFormat) (files : List String)
    (processed_files : List String) (ident : String)
    (hnd : (files.map baseName).Nodup) :
    ∀ st : PState,
      (run_files readPdf readTxt backend enc dec file_format files processed_files
          st).ledger.count ident ≤ st.ledger.count ident + 1 := by
  induction files with
  | nil => intro st; exact Nat.le_succ _
  | cons f fs ih =>
      intro st
      have hhead : baseName f ∉ fs.map baseName := (List.nodup_cons.mp (by simpa using hnd)).1
      have htail : (fs.map baseName).Nodup := (List.nodup_cons.mp (by simpa using hnd)).2
      simp only [run_files, List.foldl_cons]
      rw [show ∀ s, List.foldl _ s fs =
          run_files readPdf readTxt backend enc dec file_format fs processed_files s
        from fun _ => rfl]
      rcases process_file_ledger_step readPdf readTxt backend enc dec f file_format
          processed_files st with h | h
      · calc (run_files readPdf readTxt backend enc dec file_format fs processed_files
              (process_file readPdf readTxt backend enc dec f file_format
                processed_files st).2.1).ledger.count ident
            ≤ (process_file readPdf readTxt backend enc dec f file_format
                processed_files st).2.1.ledger.count ident + 1 := ih htail _
          _ = st.ledger.count ident + 1 := by rw [h]
      · by_cases hidf : ident = baseName f
        · rw [run_files_count_notmem readPdf readTxt backend enc dec file_format fs
            processed_files ident (hidf ▸ hhead), h, List.count_append]
          simp [List.count_singleton, hidf]
        · calc (run_files readPdf readTxt backend enc dec file_format fs processed_files
                (process_file readPdf readTxt backend enc dec f file_format
                  processed_files st).2.1).ledger.count ident
              ≤ (process_file readPdf readTxt backend enc dec f file_format
                  processed_files st).2.1.ledger.count ident + 1 := ih htail _
            _ = st.ledger.count ident + 1 := by
                rw [h, List.count_append]
                simp [List.count_singleton, Ne.symm hidf]

/-- The completion loop tallies exactly the `Except.ok true` outcomes and
logs exactly the raised errors, walking every outcome. -/
theorem progressLoop_foldl (results : List (Except String Bool)) :
    ∀ acc : Nat × List String,
      results.foldl progressStep acc
        = (acc.1 + (results.filter (fun r => match r with | Except.ok true => true | _ => false)).length,
           acc.2 ++ results.filterMap
             (fun r => match r with | Except.error e => some e | _ => none)) := by
  induction results with
  | nil => intro acc; simp
  | cons r rest ih =>
      intro acc
      cases r with
      | ok b =>
          cases b with
          | true =>
              simp only [List.foldl_cons, progressStep, ih]
              simp [List.filter_cons]
              omega
          | false =>
              simp only [List.foldl_cons, progressStep, ih]
              simp [List.filter_cons]
      | error e =>
          simp only [List.foldl_cons, progressStep, ih]
          simp [List.filter_cons]

/-! ### Claims -/

/-- Claim C4: for every chunk limit `n > 0` and every input text,
`split_text_into_chunks` splits the text's token sequence into contiguous
windows of at most `n` tokens each, covering all tokens in order with no
gaps or overlaps (the windows flatten back to the full token sequence), and
decodes each window back to text; joining the decoded chunks in order is
token-equivalent to the original text, and the empty text yields zero
chunks. The tokenizer is the opaque pair `enc`/`dec`; the hypotheses record
its contract: encoding the empty string yields no tokens, decoding no tokens
yields the empty string, decoding distributes over concatenation, and
re-encoding decoded tokens is stable (token equivalence). -/
theorem C4_chunk_windows {α : Type} (enc : String → List α) (dec : List α → String)
    (n : Nat) (text : String) (hn : 0 < n)
    (henc : enc "" = [])
    (hnil : dec [] = "")
    (hhom : ∀ a b : List α, dec (a ++ b) = dec a ++ dec b)
    (hrt : ∀ s : String, enc (dec (enc s)) = enc s) :
    split_text_into_chunks enc dec n text = (chunkTokens n (enc text)).map dec
    ∧ (chunkTokens n (enc text)).flatten = enc text
    ∧ (∀ w ∈ chunkTokens n (enc text), w.length ≤ n ∧ w ≠ [])
    ∧ enc (String.join (split_text_into_chunks enc dec n text)) = enc text
    ∧ (text = "" → split_text_into_chunks enc dec n text = []) := by
  refine ⟨rfl, chunkTokens_flatten n hn _, chunkTokens_window_le n hn _, ?_, ?_⟩
  · show enc (String.join ((chunkTokens n (enc text)).map dec)) = enc text
    rw [join_map_dec dec hnil hhom, chunkTokens_flatten n hn]
    exact hrt text
  · intro h
    subst h
    simp [split_text_into_chunks, henc, chunkTokens]

/-- Witness for C4 at the character tokenizer, `n = 1`, `text = "ab"`. -/
theorem C4_chunk_windows_witness :
    split_text_into_chunks String.data String.mk 1 "ab"
        = (chunkTokens 1 (String.data "ab")).map String.mk
    ∧ (chunkTokens 1 (String.data "ab")).flatten = String.data "ab"
    ∧ (∀ w ∈ chunkTokens 1 (String.data "ab"), w.length ≤ 1 ∧ w ≠ [])
    ∧ String.data (String.join (split_text_into_chunks String.data String.mk 1 "ab"))
        = String.data "ab"
    ∧ ("ab" = "" → split_text_into_chunks String.data String.mk 1 "ab" = []) :=
  C4_chunk_windows String.data String.mk 1 "ab" (by decide) rfl rfl
    (fun a b => rfl) (fun s => rfl)

/-- Claim C7: `generate_qa_data` never raises to its caller (it is a total
function into `Option`): it returns a record holding exactly the two fields
`question` and `answer` copied from the backend's validated structured
response, or `None` when the backend call raises any error (including a
response that fails the two-field response-model validation). -/
theorem C7_generate_total (backend : String → Except String QAData)
    (text_chunk : String) :
    (∃ d, backend text_chunk = Except.ok d
        ∧ generate_qa_data backend text_chunk
            = some { question := d.question, answer := d.answer })
    ∨ (∃ e, backend text_chunk = Except.error e
        ∧ generate_qa_data backend text_chunk = none) := by
  cases h : backend text_chunk with
  | ok d => exact Or.inl ⟨d, rfl, by simp [generate_qa_data, h]⟩
  | error e => exact Or.inr ⟨e, rfl, by simp [generate_qa_data, h]⟩

/-- Claim C8: in the CSV encoding, `write_data` writes the header row with
the two field names `question` and `answer` before the record row exactly
when the destination is empty (position 0) at open time; otherwise it
appends only the record row. -/
theorem C8_csv_header (data : QARecord) (output_file : List Row) :
    (output_file = [] →
      write_data FileFormat.csv data output_file
        = [Row.header [KEY_Q, KEY_A], Row.cells [data.question, data.answer]])
    ∧ (output_file ≠ [] →
      write_data FileFormat.csv data output_file
        = output_file ++ [Row.cells [data.question, data.answer]]) := by
  constructor
  · intro h
    subst h
    rfl
  · intro h
    have : output_file.length ≠ 0 := fun hl => h (List.length_eq_zero.mp hl)
    simp [write_data, this]

/-- Witness for C8: an empty artifact gets the header, a nonempty one does
not get a second header. -/
theorem C8_csv_header_witness :
    write_data FileFormat.csv { question := "q", answer := "a" } []
        = [Row.header [KEY_Q, KEY_A], Row.cells ["q", "a"]]
    ∧ write_data FileFormat.csv { question := "q", answer := "a" }
          [Row.header [KEY_Q, KEY_A]]
        = [Row.header [KEY_Q, KEY_A], Row.cells ["q", "a"]] :=
  ⟨(C8_csv_header { question := "q", answer := "a" } []).1 rfl,
   (C8_csv_header { question := "q", answer := "a" } [Row.header [KEY_Q, KEY_A]]).2
     (by simp)⟩

/-- Claim C2: with every append holding the process-wide `write_lock` for
the whole open-append-close sequence, a run of `N` workers each appending
`M` records is some serialization `seq` of the workers' appends — any
permutation of their pooled records. Re-parsing the resulting artifact
recovers exactly those `N * M` records, and the CSV header appears at most
once. -/
theorem C2_concurrent_append (file_format : FileFormat) (N M : Nat)
    (workers : List (List QARecord))
    (hN : workers.length = N) (hM : ∀ w ∈ workers, w.length = M)
    (seq : List QARecord) (hseq : List.Perm seq workers.flatten) :
    parseRecords (append_records file_format seq []) = seq
    ∧ (parseRecords (append_records file_format seq [])).length = N * M
    ∧ headerCount (append_records file_format seq []) ≤ 1 := by
  have h1 : parseRecords (append_records file_format seq []) = seq := by
    simpa [parseRecords] using parseRecords_append_records file_format seq []
  refine ⟨h1, ?_, headerCount_append_records file_format seq [] (by simp [headerCount])⟩
  rw [h1, hseq.length_eq]
  exact flatten_length_workers N M workers hN hM

/-- Witness for C2: two workers with one record each, appended in swapped
order. -/
theorem C2_concurrent_append_witness :
    parseRecords (append_records FileFormat.csv
        [{ question := "q2", answer := "a2" }, { question := "q1", answer := "a1" }] [])
      = [{ question := "q2", answer := "a2" }, { question := "q1", answer := "a1" }]
    ∧ (parseRecords (append_records FileFormat.csv
        [{ question := "q2", answer := "a2" }, { question := "q1", answer := "a1" }] [])).length
      = 2 * 1
    ∧ headerCount (append_records FileFormat.csv
        [{ question := "q2", answer := "a2" }, { question := "q1", answer := "a1" }] []) ≤ 1 :=
  C2_concurrent_append FileFormat.csv 2 1
    [[{ question := "q1", answer := "a1" }], [{ question := "q2", answer := "a2" }]]
    rfl (by decide)
    [{ question := "q2", answer := "a2" }, { question := "q1", answer := "a1" }]
    (by decide)

/-- Claim C3: for a file whose base name is in the ledger snapshot loaded at
dispatch start, `process_file` returns `False` immediately, with the shared
state untouched and an empty invocation trace — in particular the Text
Extractor is never invoked on that file. -/
theorem C3_ledger_skip {α : Type} (readPdf readTxt : String → Option String)
    (backend : String → Except String QAData)
    (enc : String → List α) (dec : List α → String)
    (file_path : String) (file_format : FileFormat)
    (processed_files : List String) (st : PState)
    (hmem : baseName file_path ∈ processed_files) :
    process_file readPdf readTxt backend enc dec file_path file_format
      processed_files st = (false, st, []) := by
  simp [process_file, hmem]

/-- Witness for C3: `f.txt` is in the snapshot, so its task is a no-op with
no extractor call. -/
theorem C3_ledger_skip_witness :
    process_file (fun _ => some "P") (fun _ => some "T")
      (fun _ => Except.error "e") String.data String.mk
      "data/f.txt" FileFormat.csv ["f.txt"] { output := [], ledger := ["old"] }
      = (false, { output := [], ledger := ["old"] }, []) :=
  C3_ledger_skip (fun _ => some "P") (fun _ => some "T")
    (fun _ => Except.error "e") String.data String.mk
    "data/f.txt" FileFormat.csv ["f.txt"] { output := [], ledger := ["old"] }
    (by decide)

/-- Claim C5: for a file not in the snapshot whose extracted text is
non-empty, if the generator returns `None` for every chunk of the file,
`process_file` still appends the base name to the ledger and returns
`True`, while the output artifact is unchanged (zero records written). -/
theorem C5_generator_always_fails {α : Type} (readPdf readTxt : String → Option String)
    (backend : String → Except String QAData)
    (enc : String → List α) (dec : List α → String)
    (file_path : String) (file_format : FileFormat)
    (processed_files : List String) (st : PState)
    (hmem : baseName file_path ∉ processed_files)
    (t : String) (hext : extract_text readPdf readTxt file_path = some t)
    (hne : t ≠ "")
    (hgen : ∀ c ∈ split_text_into_chunks enc dec DATA_CHUNK_SIZE t,
        generate_qa_data backend c = none) :
    (process_file readPdf readTxt backend enc dec file_path file_format
        processed_files st).1 = true
    ∧ (process_file readPdf readTxt backend enc dec file_path file_format
        processed_files st).2.1.ledger = st.ledger ++ [baseName file_path]
    ∧ (process_file readPdf readTxt backend enc dec file_path file_format
        processed_files st).2.1.output = st.output := by
  have hfold := processChunk_foldl_none backend file_format
    (split_text_into_chunks enc dec DATA_CHUNK_SIZE t) hgen st
    [Event.extractCall file_path]
  refine ⟨?_, ?_, ?_⟩ <;> simp [process_file, hmem, hext, hne, hfold]

/-- Witness for C5: a one-chunk text whose generation always errors still
marks the file processed with nothing written. -/
theorem C5_generator_always_fails_witness :
    (process_file (fun _ => none) (fun _ => some "hello")
        (fun _ => Except.error "boom") String.data String.mk
        "data/f.txt" FileFormat.jsonl [] { output := [], ledger := [] }).1 = true
    ∧ (process_file (fun _ => none) (fun _ => some "hello")
        (fun _ => Except.error "boom") String.data String.mk
        "data/f.txt" FileFormat.jsonl [] { output := [], ledger := [] }).2.1.ledger
        = [] ++ [baseName "data/f.txt"]
    ∧ (process_file (fun _ => none) (fun _ => some "hello")
        (fun _ => Except.error "boom") String.data String.mk
        "data/f.txt" FileFormat.jsonl [] { output := [], ledger := [] }).2.1.output
        = [] :=
  C5_generator_always_fails (fun _ => none) (fun _ => some "hello")
    (fun _ => Except.error "boom") String.data String.mk
    "data/f.txt" FileFormat.jsonl [] { output := [], ledger := [] }
    (by decide) "hello" (by decide) (by decide) (fun c _ => rfl)

/-- Counterexample to Claim C6 as stated: extraction can return the
non-null empty text (`extract` yields `Some ""`), yet `process_file` returns
`False` and does not append the identifier to the ledger, because python's
`if text:` is false for the empty string. -/
theorem C6_counterexample :
    extract_text (fun _ => none) (fun _ => some "") "f.txt" = some ""
    ∧ (process_file (fun _ => none) (fun _ => some "")
        (fun _ => Except.error "e") String.data String.mk
        "f.txt" FileFormat.jsonl [] { output := [], ledger := [] }).1 = false
    ∧ (process_file (fun _ => none) (fun _ => some "")
        (fun _ => Except.error "e") String.data String.mk
        "f.txt" FileFormat.jsonl [] { output := [], ledger := [] }).2.1.ledger
        = [] := by
  have hext : extract_text (fun _ => none) (fun _ => some "") "f.txt" = some "" := by
    decide
  refine ⟨hext, ?_, ?_⟩ <;> simp [process_file, hext]

/-- Claim C6 (amended): `process_file` returns `True` — attempting all
chunks and appending the identifier to the Ledger — exactly when the file is
not in the snapshot and extraction returns non-null, NON-EMPTY text; it
returns `False` when extraction returns null, when the extracted text is
empty (python's `if text:` treats `""` like `None`), or when the ledger
snapshot already contains the identifier. -/
theorem C6_amended {α : Type} (readPdf readTxt : String → Option String)
    (backend : String → Except String QAData)
    (enc : String → List α) (dec : List α → String)
    (file_path : String) (file_format : FileFormat)
    (processed_files : List String) (st : PState) :
    ((process_file readPdf readTxt backend enc dec file_path file_format
        processed_files st).1 = true ↔
      (baseName file_path ∉ processed_files
        ∧ ∃ t, extract_text readPdf readTxt file_path = some t ∧ t ≠ ""))
    ∧ ((process_file readPdf readTxt backend enc dec file_path file_format
        processed_files st).1 = true →
      (process_file readPdf readTxt backend enc dec file_path file_format
          processed_files st).2.1.ledger = st.ledger ++ [baseName file_path])
    ∧ (∀ t, baseName file_path ∉ processed_files →
        extract_text readPdf readTxt file_path = some t → t ≠ "" →
        (process_file readPdf readTxt backend enc dec file_path file_format
            processed_files st).2.2
          = Event.extractCall file_path ::
              (split_text_into_chunks enc dec DATA_CHUNK_SIZE t).map
                Event.generateCall) := by
  refine ⟨?_, ?_, ?_⟩
  · rcases process_file_cases readPdf readTxt backend enc dec file_path file_format
        processed_files st with ⟨h1, h2, h3, h4⟩ | ⟨h1, h2, h3⟩
    · exact ⟨fun _ => ⟨h3, h4⟩, fun _ => h1⟩
    · constructor
      · intro ht
        rw [h1] at ht
        exact absurd ht (by simp)
      · rintro ⟨hm, t, hext, hne⟩
        exfalso
        rcases h3 with h | h | h
        · exact hm h
        · rw [h] at hext
          exact Option.noConfusion hext
        · rw [h] at hext
          exact hne (Option.some.inj hext).symm
  · rcases process_file_cases readPdf readTxt backend enc dec file_path file_format
        processed_files st with ⟨h1, h2, h3, h4⟩ | ⟨h1, h2, h3⟩
    · exact fun _ => h2
    · intro ht
      rw [h1] at ht
      exact absurd ht (by simp)
  · intro t hmem hext hne
    have hev := processChunk_foldl_events backend file_format
      (split_text_into_chunks enc dec DATA_CHUNK_SIZE t) st
      [Event.extractCall file_path]
    simp [process_file, hmem, hext, hne, hev]

/-- Witness for C6 (amended): a file with non-empty extracted text is
processed — `True`, ledger appended, every chunk attempted. -/
theorem C6_amended_witness :
    (process_file (fun _ => none) (fun _ => some "ok")
        (fun _ => Except.ok { question := "Q", answer := "A" }) String.data String.mk
        "h.txt" FileFormat.jsonl [] { output := [], ledger := [] }).1 = true
    ∧ (process_file (fun _ => none) (fun _ => some "ok")
        (fun _ => Except.ok { question := "Q", answer := "A" }) String.data String.mk
        "h.txt" FileFormat.jsonl [] { output := [], ledger := [] }).2.1.ledger
      = [] ++ [baseName "h.txt"]
    ∧ (process_file (fun _ => none) (fun _ => some "ok")
        (fun _ => Except.ok { question := "Q", answer := "A" }) String.data String.mk
        "h.txt" FileFormat.jsonl [] { output := [], ledger := [] }).2.2
      = Event.extractCall "h.txt" ::
          (split_text_into_chunks String.data String.mk DATA_CHUNK_SIZE "ok").map
            Event.generateCall := by
  have h := C6_amended (fun _ => none) (fun _ => some "ok")
    (fun _ => Except.ok { question := "Q", answer := "A" }) String.data String.mk
    "h.txt" FileFormat.jsonl [] { output := [], ledger := [] }
  have h1 := (h.1).mpr ⟨by decide, "ok", by decide, by decide⟩
  exact ⟨h1, h.2.1 h1, h.2.2 "ok" (by decide) (by decide) (by decide)⟩

/-- Counterexample to Claim C1 as stated: a run in which no chunk ever
produced a QA record (the backend always errors) still appends the file's
identifier to the ledger — the "only after at least one successfully
written QARecord" half of the invariant fails on the code. -/
theorem C1_counterexample :
    (process_file (fun _ => none) (fun _ => some "hi")
        (fun _ => Except.error "boom") String.data String.mk
        "g.txt" FileFormat.csv [] { output := [], ledger := [] }).1 = true
    ∧ (process_file (fun _ => none) (fun _ => some "hi")
        (fun _ => Except.error "boom") String.data String.mk
        "g.txt" FileFormat.csv [] { output := [], ledger := [] }).2.1.ledger
        = ["g.txt"]
    ∧ parseRecords
        ((process_file (fun _ => none) (fun _ => some "hi")
          (fun _ => Except.error "boom") String.data String.mk
          "g.txt" FileFormat.csv [] { output := [], ledger := [] }).2.1.output)
        = [] := by
  have hext : extract_text (fun _ => none) (fun _ => some "hi") "g.txt" = some "hi" := by
    decide
  have hb : baseName "g.txt" = "g.txt" := by decide
  have hfold := processChunk_foldl_none (fun _ => Except.error "boom") FileFormat.csv
    (split_text_into_chunks String.data String.mk DATA_CHUNK_SIZE "hi")
    (fun c _ => rfl) { output := [], ledger := [] } [Event.extractCall "g.txt"]
  refine ⟨?_, ?_, ?_⟩ <;> simp [process_file, hext, hb, hfold, parseRecords]

/-- Claim C1 (amended): a source-file identifier is appended to the ledger
at most once per run (directory entries have pairwise-distinct base names),
and only after the whole file was walked: any ledger-changing call saw
extraction succeed with non-empty text and its event trace shows the
extractor call followed by one generator call per chunk of that text —
every chunk was attempted before the append. The counterexample forces
dropping the "at least one chunk produced a successfully written QARecord"
condition: a file every chunk of which failed to generate is still appended
(cf. C5). -/
theorem C1_amended {α : Type} (readPdf readTxt : String → Option String)
    (backend : String → Except String QAData)
    (enc : String → List α) (dec : List α → String)
    (file_format : FileFormat) (files processed_files : List String)
    (st : PState) (ident : String)
    (hnd : (files.map baseName).Nodup) :
    (run_files readPdf readTxt backend enc dec file_format files processed_files
        st).ledger.count ident ≤ st.ledger.count ident + 1
    ∧ ∀ (file_path : String) (st' : PState),
        (process_file readPdf readTxt backend enc dec file_path file_format
            processed_files st').2.1.ledger ≠ st'.ledger →
          ∃ t, extract_text readPdf readTxt file_path = some t ∧ t ≠ ""
            ∧ (process_file readPdf readTxt backend enc dec file_path file_format
                processed_files st').2.2
              = Event.extractCall file_path ::
                  (split_text_into_chunks enc dec DATA_CHUNK_SIZE t).map
                    Event.generateCall := by
  refine ⟨run_files_count_le readPdf readTxt backend enc dec file_format files
    processed_files ident hnd st, ?_⟩
  intro fp st' hdiff
  rcases process_file_cases readPdf readTxt backend enc dec fp file_format
      processed_files st' with ⟨_, _, h3, h4⟩ | ⟨_, h2, _⟩
  · obtain ⟨t, hext, hne⟩ := h4
    refine ⟨t, hext, hne, ?_⟩
    have hev := processChunk_foldl_events backend file_format
      (split_text_into_chunks enc dec DATA_CHUNK_SIZE t) st' [Event.extractCall fp]
    simp [process_file, h3, hext, hne, hev]
  · exact absurd (congrArg PState.ledger h2) hdiff

/-- Witness for C1 (amended) on a two-file run. -/
theorem C1_amended_witness :
    (run_files (fun _ => none) (fun _ => some "hi")
        (fun _ => Except.error "boom") String.data String.mk
        FileFormat.jsonl ["a.txt", "b.txt"] [] { output := [], ledger := [] }).ledger.count
        "a.txt"
      ≤ (PState.mk [] []).ledger.count "a.txt" + 1
    ∧ ∀ (file_path : String) (st' : PState),
        (process_file (fun _ => none) (fun _ => some "hi")
            (fun _ => Except.error "boom") String.data String.mk file_path
            FileFormat.jsonl [] st').2.1.ledger ≠ st'.ledger →
          ∃ t, extract_text (fun _ => none) (fun _ => some "hi") file_path = some t
            ∧ t ≠ ""
            ∧ (process_file (fun _ => none) (fun _ => some "hi")
                (fun _ => Except.error "boom") String.data String.mk file_path
                FileFormat.jsonl [] st').2.2
              = Event.extractCall file_path ::
                  (split_text_into_chunks String.data String.mk DATA_CHUNK_SIZE t).map
                    Event.generateCall :=
  C1_amended (fun _ => none) (fun _ => some "hi") (fun _ => Except.error "boom")
    String.data String.mk FileFormat.jsonl ["a.txt", "b.txt"] []
    { output := [], ledger := [] } "a.txt" (by decide)

/-- Counterexample to Claim C9 as stated: one submitted task completes with
`process_file` returning `False`, and the progress count stays at `0`
instead of advancing by one per completed task. -/
theorem C9_counterexample :
    (progressLoop [Except.ok false]).1 = 0
    ∧ ([Except.ok false] : List (Except String Bool)).length = 1 := by
  decide

/-- Claim C9 (amended): as tasks complete, the dispatcher advances the
progress indicator by one only for tasks whose `process_file` returned
`True` (`pbar.update(1)` sits under `if future.result():`); `False` results
and raised exceptions advance it by zero, and every raised exception is
caught and logged while the loop walks all completed tasks — no task
failure aborts the batch. -/
theorem C9_amended (results : List (Except String Bool)) :
    (progressLoop results).1
      = (results.filter
          (fun r => match r with | Except.ok true => true | _ => false)).length
    ∧ (progressLoop results).2
      = results.filterMap
          (fun r => match r with | Except.error e => some e | _ => none) := by
  have h := progressLoop_foldl results (0, [])
  constructor
  · rw [progressLoop, h]
    simp
  · rw [progressLoop, h]
    simp

/-- Claim C10: the Dispatcher's candidate filter compares extensions
case-sensitively, so a file whose extension is an uppercase or mixed-case
variant of a supported one is never enumerated as a candidate — even though
`extract_text` lowercases the extension and would dispatch such a file to a
reader (not the unsupported-type branch) if called directly. -/
theorem C10_case_sensitive_filter (f : String) (force : Bool)
    (processed_files : List String)
    (h1 : strLower (splitextExt f) ∈ supported_types)
    (h2 : splitextExt f ∉ supported_types) :
    candidateFilter force processed_files f = false
    ∧ (extract_text (fun _ => some "P") (fun _ => some "T") f = some "P"
       ∨ extract_text (fun _ => some "P") (fun _ => some "T") f = some "T") := by
  constructor
  · simp [candidateFilter, h2]
  · have h1m : strLower (splitextExt f) = ".pdf"
        ∨ strLower (splitextExt f) = ".txt"
        ∨ strLower (splitextExt f) = ".md" := by
      simpa [supported_types] using h1
    rcases h1m with h | h | h
    · exact Or.inl (by simp [extract_text, h])
    · exact Or.inr (by simp [extract_text, h])
    · exact Or.inr (by simp [extract_text, h])

/-- Witness for C10 at `doc.PDF`. -/
theorem C10_case_sensitive_filter_witness :
    candidateFilter false [] "doc.PDF" = false
    ∧ (extract_text (fun _ => some "P") (fun _ => some "T") "doc.PDF" = some "P"
       ∨ extract_text (fun _ => some "P") (fun _ => some "T") "doc.PDF" = some "T") :=
  C10_case_sensitive_filter "doc.PDF" false [] (by decide) (by decide)

end QAGen
